import Mathlib

/-!
Verification development for the `pg_dependences` tool
(`pg_dependences/pg_dependences.py`).

The program inspects a PostgreSQL schema and reports, for each table or
view, the other objects (views, functions) whose definition text matches
the object's name, plus the tables holding foreign keys to it.  We give a
shallow embedding of its core logic:

* the `SIMILAR TO` pattern matching used by `Dependences.childs`
  (patterns built with Python `format` at lines 162-168 of the source),
* the catalog queries `childs`, `fkeys`, `schema_list`, `create_table`
  modelled over an explicit catalog snapshot (`Db`),
* the traversal `recursive_childs` (which iterates over a Python list
  while appending to it, with membership tested by *object identity*
  because class `Table` defines no `__eq__`),
* the graph construction `Graph.graph_childs` / `Graph.graph_fkeys`
  (again with identity-based `not in self.plotted` tests), and
* the CLI driver `run` (schema report branch and `--table` branch).

Python object identity is modelled by a `Nat` tag `id` on each allocated
`Table` object; every row returned by a query allocates fresh tags, as
`Table(row)` allocates fresh objects in Python.
-/

namespace PgDep

/-! ### SQL `SIMILAR TO` patterns

`Dependences.childs` filters definitions with `SIMILAR TO` against the two
patterns built at source lines 165-166.  The metacharacters actually used
there are `%` (any string), `( )` grouping with `*` / `?` repetition, and
backslash-escaped literal parentheses; a bare `.` is a *literal* dot for
`SIMILAR TO` (it is not a metacharacter).  `SIMILAR TO` matches the whole
string.  We embed exactly that fragment: literal strings, optional literal
strings, starred single characters, and `%`. -/

inductive SimItem where
  | lit (s : List Char)
  | opt (s : List Char)
  | star (c : Char)
  | pct
  deriving DecidableEq

/-- Length of the leading run of the character `c` in a word. -/
def leadingRun (c : Char) : List Char → Nat
  | [] => 0
  | d :: w => if d == c then leadingRun c w + 1 else 0

/-- Whole-string matching of a `SIMILAR TO` pattern (as a list of
`SimItem`s) against a character list.  A starred character consumes any
prefix of the leading run of that character; `%` consumes any prefix. -/
def simMatch : List SimItem → List Char → Bool
  | [], w => w.isEmpty
  | .lit s :: ps, w => s.isPrefixOf w && simMatch ps (w.drop s.length)
  | .opt s :: ps, w => simMatch ps w || (s.isPrefixOf w && simMatch ps (w.drop s.length))
  | .star c :: ps, w =>
      (List.range (leadingRun c w + 1)).any fun k => simMatch ps (w.drop k)
  | .pct :: ps, w => (List.range (w.length + 1)).any fun k => simMatch ps (w.drop k)

/-- Pattern of source line 165, for a target `(schema, name)`:
`'% (\()*(")?{schema}(")?.(")?{name}(")?(\))*(;)?(\()? %'`. -/
def pat1 (schema name : String) : List SimItem :=
  [.pct, .lit [' '], .star '(', .opt ['"'], .lit schema.data, .opt ['"'],
   .lit ['.'], .opt ['"'], .lit name.data, .opt ['"'],
   .star ')', .opt [';'], .opt ['('], .lit [' '], .pct]

/-- Pattern of source line 166, for a target `name` alone:
`'% (\()*(")?{name}(")?(\))*(;)?(\()? %'`. -/
def pat2 (name : String) : List SimItem :=
  [.pct, .lit [' '], .star '(', .opt ['"'], .lit name.data, .opt ['"'],
   .star ')', .opt [';'], .opt ['('], .lit [' '], .pct]

/-! ### Newline flattening

Both CTEs of `childs` apply `regexp_replace(…, E'[\n\r]+', ' ', 'g')`:
every maximal run of newline / carriage-return characters becomes a single
space. -/

def isNL (c : Char) : Bool := c == '\n' || c == '\r'

def flattenNL : List Char → List Char
  | [] => []
  | [c] => if isNL c then [' '] else [c]
  | c :: d :: cs =>
      if isNL c then
        if isNL d then flattenNL (d :: cs) else ' ' :: flattenNL (d :: cs)
      else c :: flattenNL (d :: cs)

/-! ### Catalog snapshot

The program only reads catalog metadata; we model the snapshot a run sees
as explicit row lists for the relations it queries:
`information_schema.tables`, `pg_catalog.pg_proc` (with
`pg_get_functiondef` text), `pg_catalog.pg_views`, and the three
`information_schema` relations used by `fkeys`. -/

/-- A row of `information_schema.tables` as selected by `create_table` /
`schema_list` (aliases `type`, `schema_name`, `table_name`). -/
structure TblRow where
  table_type : String
  table_schema : String
  table_name : String
  deriving DecidableEq

/-- A function or view candidate row as assembled by the two CTEs of
`childs`: owning schema, object name, raw definition text (the CTEs then
collapse newline runs to spaces). -/
structure DefRow where
  schema_name : String
  table_name : String
  definition : String
  deriving DecidableEq

/-- A row of `information_schema.constraint_column_usage`: the constraint
identifier plus the *referenced* table and one referenced column. -/
structure CCURow where
  ccat : String
  csch : String
  cname : String
  tsch : String
  tname : String
  col : String
  deriving DecidableEq

/-- A row of `information_schema.referential_constraints` (only the
constraint identifier takes part in the query's `USING` joins). -/
structure RCRow where
  ccat : String
  csch : String
  cname : String
  deriving DecidableEq

/-- A row of `information_schema.key_column_usage`: constraint identifier,
*referencing* table, one constrained column, and its positions. -/
structure KCURow where
  ccat : String
  csch : String
  cname : String
  tsch : String
  tname : String
  col : String
  ord : Nat
  pos : Nat
  deriving DecidableEq

/-- The catalog snapshot one CLI invocation reads. -/
structure Db where
  tables : List TblRow
  funcs : List DefRow
  views : List DefRow
  ccu : List CCURow
  rc : List RCRow
  kcu : List KCURow
  deriving DecidableEq

/-! ### Ordering and row helpers

The queries end in `ORDER BY 1,2,3`; we model that with a stable insertion
sort under a byte-wise lexicographic string order (all identifiers in our
catalogs are plain ASCII, where this agrees with the catalog collation
order on the examples at hand).  `SELECT … UNION SELECT …` removes
duplicate rows; `dedupFirst` keeps the first occurrence of each row. -/

def chListLt : List Char → List Char → Bool
  | [], [] => false
  | [], _ :: _ => true
  | _ :: _, [] => false
  | a :: as, b :: bs =>
      if a.toNat < b.toNat then true
      else if b.toNat < a.toNat then false
      else chListLt as bs

def strLt (a b : String) : Bool := chListLt a.data b.data

/-- Lexicographic order on a `(type, schema_name, table_name)` sort key. -/
def key3Lt (a b : String × String × String) : Bool :=
  strLt a.1 b.1 ||
    (a.1 == b.1 && (strLt a.2.1 b.2.1 || (a.2.1 == b.2.1 && strLt a.2.2 b.2.2)))

def insertSorted (le : α → α → Bool) (a : α) : List α → List α
  | [] => [a]
  | b :: bs => if le a b then a :: b :: bs else b :: insertSorted le a bs

def sortedBy (le : α → α → Bool) : List α → List α
  | [] => []
  | a :: as => insertSorted le a (sortedBy le as)

def dedupAux [BEq α] (seen : List α) : List α → List α
  | [] => []
  | a :: as =>
      if seen.any (· == a) then dedupAux seen as
      else a :: dedupAux (seen ++ [a]) as

def dedupFirst [BEq α] (l : List α) : List α := dedupAux [] l

/-! ### `Dependences.childs` (source lines 121-170)

The query builds a candidate set from two CTEs:

* `f`: all functions whose schema is outside
  `('public','information_schema','pg_catalog')`, whose name is not
  `'nmul'`, and which are **not the queried object itself**
  (`AND NOT (n.nspname = %s AND p.proname = %s)`);
* `v`: all views whose schema is outside
  `('public','information_schema','pg_catalog','nmul')` — note there is
  **no** self-exclusion in this CTE;

then keeps the rows whose flattened definition matches `pat1`, or matches
`pat2` *and* lives in the target's schema, and returns
`(type, schema_name, table_name)` triples ordered by that key. -/

/-- The target of a `childs` / `fkeys` query: the `table.schema` /
`table.name` attributes the Python code reads off the passed object. -/
structure Tgt where
  schema : String
  name : String
  deriving DecidableEq

/-- A candidate row of the CTE union `r`, with its flattened definition. -/
structure CandRow where
  ty : String
  schema_name : String
  table_name : String
  definition : List Char
  deriving DecidableEq

def fRows (db : Db) (t : Tgt) : List CandRow :=
  (db.funcs.filter fun d =>
      !(["public", "information_schema", "pg_catalog"].contains d.schema_name) &&
      d.table_name != "nmul" &&
      !(d.schema_name == t.schema && d.table_name == t.name)).map fun d =>
    ⟨"FUNCTION", d.schema_name, d.table_name, flattenNL d.definition.data⟩

def vRows (db : Db) : List CandRow :=
  (db.views.filter fun d =>
      !(["public", "information_schema", "pg_catalog", "nmul"].contains d.schema_name)).map fun d =>
    ⟨"VIEW", d.schema_name, d.table_name, flattenNL d.definition.data⟩

/-- The CTE `r`: `SELECT * FROM f UNION SELECT * FROM v` (set union). -/
def candidates (db : Db) (t : Tgt) : List CandRow :=
  dedupFirst (fRows db t ++ vRows db)

/-- The `WHERE` clause of the outer query:
`definition SIMILAR TO pat1 OR (definition SIMILAR TO pat2 AND schema_name = target.schema)`. -/
def matchCond (t : Tgt) (r : CandRow) : Bool :=
  simMatch (pat1 t.schema t.name) r.definition ||
    (simMatch (pat2 t.name) r.definition && r.schema_name == t.schema)

def childsMatched (db : Db) (t : Tgt) : List CandRow :=
  (candidates db t).filter (matchCond t)

def candLe (a b : CandRow) : Bool :=
  !(key3Lt (b.ty, b.schema_name, b.table_name) (a.ty, a.schema_name, a.table_name))

/-- Result rows of the `childs` query: `(type, schema_name, table_name)`
triples, `ORDER BY 1,2,3`. -/
def childs_rows (db : Db) (t : Tgt) : List (String × String × String) :=
  (sortedBy candLe (childsMatched db t)).map fun r => (r.ty, r.schema_name, r.table_name)

/-! ### The object model and Python identity

Class `Table` (source lines 21-37) stores `schema`, `name`, `_type` and
defines **no** `__eq__`, so `in` / `not in` tests on lists of `Table`s
compare by object identity.  We model identity with a `Nat` tag `id`;
every `[Table(row) for row in …]` comprehension allocates fresh tags. -/

structure PyTable where
  ty : String
  schema : String
  name : String
  id : Nat
  deriving DecidableEq

/-- `Table.formated` (source line 33). -/
def PyTable.formated (t : PyTable) : String := t.schema ++ "." ++ t.name

/-- Class `Column` (source lines 40-59): built from a `fkeys` row whose
`name` field is the aggregated column-name array. -/
structure PyCol where
  schema : String
  table : String
  names : List String
  id : Nat
  deriving DecidableEq

/-- `Column.formated` (source line 52). -/
def PyCol.formated (c : PyCol) : String := c.schema ++ "." ++ c.table

def joinComma : List String → String
  | [] => ""
  | [x] => x
  | x :: xs => x ++ ", " ++ joinComma xs

/-- `Column.fkeys` (source line 55): `', '.join(self.name)`. -/
def PyCol.fkeysLabel (c : PyCol) : String := joinComma c.names

/-- Python `x in l` on a list of `Table`s: identity comparison. -/
def pyMem (x : PyTable) (l : List PyTable) : Bool := l.any fun y => y.id == x.id

/-- Allocate `Table` objects for the rows of a query result, with fresh
identities starting at `ctr`; returns the objects and the next fresh tag. -/
def allocTables (rows : List (String × String × String)) (ctr : Nat) :
    List PyTable × Nat :=
  (rows.enum.map fun p => ⟨p.2.1, p.2.2.1, p.2.2.2, ctr + p.1⟩, ctr + rows.length)

/-- `Dependences.childs` as called at runtime: run the query for the
object's `(schema, name)` and allocate fresh `Table` objects, one per
result row (source line 170). -/
def childs (db : Db) (p : PyTable) (ctr : Nat) : List PyTable × Nat :=
  allocTables (childs_rows db ⟨p.schema, p.name⟩) ctr

/-! ### `Dependences.recursive_childs` (source lines 172-186)

```
res = list()
scanned = [table]
for parent in scanned:
    childs = self.childs(parent)
    if len(childs) > 0:
        res.append([parent, childs])
        [scanned.append(c) for c in childs if c not in scanned]
return res
```

Python's list iterator walks indices `0, 1, …` of the *growing* list and
stops once the index reaches the current length; `c not in scanned` is an
identity test (see above).  `recLoop` is that loop with an explicit index,
plus a fuel argument because the loop need not terminate; `none` means the
fuel ran out with the loop still going.  It also returns the final
`scanned` list so that the traversal state can be observed. -/

def recLoop (db : Db) :
    Nat → Nat → List PyTable → List (PyTable × List PyTable) → Nat →
      Option (List (PyTable × List PyTable) × List PyTable)
  | 0, _, _, _, _ => none
  | Nat.succ fuel, i, scanned, res, ctr =>
      if h : i < scanned.length then
        if (childs db scanned[i] ctr).1.length > 0 then
          recLoop db fuel (i + 1)
            ((childs db scanned[i] ctr).1.foldl
              (fun acc c => if pyMem c acc then acc else acc ++ [c]) scanned)
            (res ++ [(scanned[i], (childs db scanned[i] ctr).1)])
            (childs db scanned[i] ctr).2
        else
          recLoop db fuel (i + 1) scanned res (childs db scanned[i] ctr).2
      else some (res, scanned)

/-- `recursive_childs(table)`: the loop started with `scanned = [table]`,
`res = []`, returning `res`.  Fresh identity tags start above the root's. -/
def recursive_childs (db : Db) (root : PyTable) (fuel : Nat) :
    Option (List (PyTable × List PyTable)) :=
  (recLoop db fuel 0 [root] [] (root.id + 1)).map Prod.fst

/-! ### `Dependences.fkeys` (source lines 189-232)

The query groups `constraint_column_usage` by constraint (giving the
referenced table of each foreign key), joins `referential_constraints` and
a grouped, pre-sorted `key_column_usage` (giving the referencing table and
its constrained columns aggregated in
`ORDER BY ordinal_position, position_in_unique_constraint` order), filters
on the referenced table and returns
`(schema_name, table_name, column_name_array)` rows, `ORDER BY 1,2,3`. -/

structure CKey where
  ccat : String
  csch : String
  cname : String
  tsch : String
  tname : String
  deriving DecidableEq

def ccuKey (r : CCURow) : CKey := ⟨r.ccat, r.csch, r.cname, r.tsch, r.tname⟩

def kcuKey (r : KCURow) : CKey := ⟨r.ccat, r.csch, r.cname, r.tsch, r.tname⟩

/-- `GROUP BY` with `array_agg`: group rows by key, first-occurrence key
order, aggregating `val` in row order within each group. -/
def groupAgg [BEq κ] (key : ρ → κ) (val : ρ → σ) (rows : List ρ) :
    List (κ × List σ) :=
  (dedupFirst (rows.map key)).map fun k =>
    (k, (rows.filter fun r => key r == k).map val)

/-- Order of the `key_column_usage` subquery:
`ORDER BY ordinal_position, position_in_unique_constraint`. -/
def kcuLt (a b : KCURow) : Bool :=
  a.ord < b.ord || (a.ord == b.ord && a.pos < b.pos)

def kcuLe (a b : KCURow) : Bool := !(kcuLt b a)

def listStrLt : List String → List String → Bool
  | [], [] => false
  | [], _ :: _ => true
  | _ :: _, [] => false
  | a :: as, b :: bs =>
      if strLt a b then true else if strLt b a then false else listStrLt as bs

/-- Order of the final `ORDER BY 1,2,3` of `fkeys` (third column is the
aggregated column-name array). -/
def fkRowLe (a b : String × String × List String) : Bool :=
  !(strLt b.1 a.1 ||
      (b.1 == a.1 && (strLt b.2.1 a.2.1 || (b.2.1 == a.2.1 && listStrLt b.2.2 a.2.2))))

/-- Result rows of the `fkeys` query for a target object:
`(schema_name, table_name, name)` where `name` is the aggregated column
array of the referencing table. -/
def fkeys_rows (db : Db) (t : Tgt) : List (String × String × List String) :=
  sortedBy fkRowLe
    ((groupAgg ccuKey CCURow.col db.ccu).flatMap fun rg =>
      if rg.1.tsch == t.schema && rg.1.tname == t.name then
        (db.rc.filter fun f =>
            (rg.1.ccat, rg.1.csch, rg.1.cname) == (f.ccat, f.csch, f.cname)).flatMap fun _f =>
          ((groupAgg kcuKey KCURow.col (sortedBy kcuLe db.kcu)).filter fun sg =>
              (sg.1.ccat, sg.1.csch, sg.1.cname) == (rg.1.ccat, rg.1.csch, rg.1.cname)).map fun sg =>
            (sg.1.tsch, sg.1.tname, sg.2)
      else [])

/-- `Dependences.fkeys` returns the pair `(table, cols)` where `cols` are
`Column` objects allocated from the result rows (source lines 229-232). -/
def allocCols (rows : List (String × String × List String)) (ctr : Nat) :
    List PyCol × Nat :=
  (rows.enum.map fun p => ⟨p.2.1, p.2.2.1, p.2.2.2, ctr + p.1⟩, ctr + rows.length)

def fkeys (db : Db) (p : PyTable) (ctr : Nat) : (PyTable × List PyCol) × Nat :=
  ((p, (allocCols (fkeys_rows db ⟨p.schema, p.name⟩) ctr).1),
    (allocCols (fkeys_rows db ⟨p.schema, p.name⟩) ctr).2)

/-! ### Class `Graph` (source lines 235-279)

`Graph` keeps `self.plotted`, a Python list holding both `Table` and
`Column` objects; `parent not in self.plotted` / `child not in
self.plotted` are identity tests (neither class defines `__eq__`, and a
`Table` is never identical to a `Column`).  A node declaration
`self.graph.node(obj.formated(), …)` is emitted exactly when the object
was not in `plotted`; its style and color are `STYLES[obj._type]`, a pure
function of the type string, so we record `(formated, _type)` per node
declaration.  Edges are recorded as `(tail, head, label)`. -/

inductive PyObj where
  | tbl (t : PyTable)
  | col (c : PyCol)
  deriving DecidableEq

/-- Python identity comparison between members of `Graph.plotted`. -/
def objSame : PyObj → PyObj → Bool
  | .tbl a, .tbl b => a.id == b.id
  | .col a, .col b => a.id == b.id
  | _, _ => false

def pyObjMem (x : PyObj) (l : List PyObj) : Bool := l.any (objSame x)

structure GState where
  plotted : List PyObj
  nodes : List (String × String)
  edges : List (String × String × String)
  deriving DecidableEq

def emptyG : GState := ⟨[], [], []⟩

/-- The `if obj not in self.plotted: node(...); plotted.append(obj)` step
for a `Table` object (inlined four times in the source). -/
def addNodeT (g : GState) (t : PyTable) : GState :=
  if pyObjMem (.tbl t) g.plotted then g
  else ⟨g.plotted ++ [.tbl t], g.nodes ++ [(t.formated, t.ty)], g.edges⟩

/-- The same step for a `Column` object (whose `_type` is always
`'BASE TABLE'`, source line 50). -/
def addNodeC (g : GState) (c : PyCol) : GState :=
  if pyObjMem (.col c) g.plotted then g
  else ⟨g.plotted ++ [.col c], g.nodes ++ [(c.formated, "BASE TABLE")], g.edges⟩

/-- `Graph.graph_childs` (source lines 247-262). -/
def graph_childs (g : GState) (childs_list : List (PyTable × List PyTable)) :
    GState :=
  childs_list.foldl
    (fun g0 pr =>
      pr.2.foldl
        (fun g1 c =>
          let g2 := addNodeT g1 c
          { g2 with edges := g2.edges ++ [(pr.1.formated, c.formated, "")] })
        (addNodeT g0 pr.1))
    g

/-- `Graph.graph_fkeys` (source lines 264-279): one pair
`(parent, columns)`, edges labelled with the joined column names. -/
def graph_fkeys (g : GState) (fkeys_list : PyTable × List PyCol) : GState :=
  fkeys_list.2.foldl
    (fun g1 c =>
      let g2 := addNodeC g1 c
      { g2 with edges := g2.edges ++ [(fkeys_list.1.formated, c.formated, c.fkeysLabel)] })
    (addNodeT g fkeys_list.1)

/-! ### `create_table`, `schema_list` and the CLI driver `run`
(source lines 78-119 and 295-326) -/

def tblLe (a b : TblRow) : Bool :=
  !(key3Lt (b.table_type, b.table_schema, b.table_name)
      (a.table_type, a.table_schema, a.table_name))

/-- Rows of the `create_table` query: `information_schema.tables` rows
with the requested schema and name and type `BASE TABLE` or `VIEW`,
`ORDER BY 1,2,3`. -/
def create_table_rows (db : Db) (schema table : String) : List TblRow :=
  sortedBy tblLe
    (db.tables.filter fun r =>
      r.table_schema == schema && r.table_name == table &&
        (r.table_type == "BASE TABLE" || r.table_type == "VIEW"))

/-- `create_table` builds `[Table(row) for row in rows][0]`: indexing an
empty list raises `IndexError`, modelled as `none` (the Python exception
aborts the run with a non-zero exit status).  The root object gets
identity tag `0`. -/
def create_table (db : Db) (schema table : String) : Option PyTable :=
  match create_table_rows db schema table with
  | [] => none
  | r :: _ => some ⟨r.table_type, r.table_schema, r.table_name, 0⟩

/-- `schema_list` (source lines 101-119): all tables and views of the
schema, `ORDER BY 1,2,3`. -/
def schema_list (db : Db) (schema : String) : List TblRow :=
  sortedBy tblLe
    (db.tables.filter fun r =>
      r.table_schema == schema &&
        (r.table_type == "BASE TABLE" || r.table_type == "VIEW"))

/-- The whole-schema report branch of `run` (source lines 309-316): for
each object of the schema, the row
`[table.schema, table._type, table.name, len(childs), len(fkeys[1])]`. -/
def schema_report (db : Db) (schema : String) :
    List (String × String × String × Nat × Nat) :=
  (schema_list db schema).map fun r =>
    (r.table_schema, r.table_type, r.table_name,
      (childs_rows db ⟨r.table_schema, r.table_name⟩).length,
      (fkeys_rows db ⟨r.table_schema, r.table_name⟩).length)

/-- The `--table` branch of `run` (source lines 317-326): resolve the root
object (aborting if absent), compute `recursive_childs` and `fkeys`, and
return both.  `none` models an aborted run that produced no output —
either the `IndexError` of `create_table` or (with finite fuel) a
traversal still running. -/
def run_table (db : Db) (schema table : String) (fuel : Nat) :
    Option (List (PyTable × List PyTable) × (PyTable × List PyCol)) :=
  match create_table db schema table with
  | none => none
  | some root =>
      match recursive_childs db root fuel with
      | none => none
      | some cl => some (cl, (fkeys db root (root.id + 1)).1)

/-! ## Concrete catalog snapshots used by the theorems -/

/-- A reference cycle: views `s.a` and `s.b` whose definition texts
contain the tokens `s.b` resp. `s.a` (the matcher is purely textual, so
such mutual textual references arise e.g. from string literals or from
mutually recursive functions). -/
def cycleDb : Db := ⟨[], [], [⟨"s", "a", " s.b "⟩, ⟨"s", "b", " s.a "⟩], [], [], []⟩

def cycleRoot : PyTable := ⟨"VIEW", "s", "a", 0⟩

/-- A chain with a leaf: table `s.z` referenced by views `s.m` and `s.q`;
view `s.a` references `s.m`; nothing references `s.q` or `s.a`. -/
def chainDb : Db :=
  ⟨[], [], [⟨"s", "m", " s.z "⟩, ⟨"s", "q", " s.z "⟩, ⟨"s", "a", " s.m "⟩], [], [], []⟩

def chainRoot : PyTable := ⟨"BASE TABLE", "s", "z", 0⟩

/-- The traversal-order result of `recursive_childs` on `chainDb`: pairs
in breadth-first order (`z` before `m` although `"m" < "z"`), and no pair
for the dequeued objects `q` and `a`, whose `childs` result is empty. -/
def chainRes : List (PyTable × List PyTable) :=
  [(⟨"BASE TABLE", "s", "z", 0⟩, [⟨"VIEW", "s", "m", 1⟩, ⟨"VIEW", "s", "q", 2⟩]),
   (⟨"VIEW", "s", "m", 1⟩, [⟨"VIEW", "s", "a", 3⟩])]

/-- A diamond: table `s.t` referenced by views `s.b` and `s.c`, both
referenced by view `s.d`. -/
def diamondDb : Db :=
  ⟨[], [], [⟨"s", "b", " s.t "⟩, ⟨"s", "c", " s.t "⟩, ⟨"s", "d", " s.b s.c "⟩], [], [], []⟩

def diamondRoot : PyTable := ⟨"BASE TABLE", "s", "t", 0⟩

/-- The `res` list `recursive_childs` builds on `diamondDb`: the database
object `s.d` appears as two distinct `Table` instances (identity tags 3
and 4), expanded once per parent. -/
def diamondRes : List (PyTable × List PyTable) :=
  [(⟨"BASE TABLE", "s", "t", 0⟩, [⟨"VIEW", "s", "b", 1⟩, ⟨"VIEW", "s", "c", 2⟩]),
   (⟨"VIEW", "s", "b", 1⟩, [⟨"VIEW", "s", "d", 3⟩]),
   (⟨"VIEW", "s", "c", 2⟩, [⟨"VIEW", "s", "d", 4⟩])]

/-- The final `scanned` list of that traversal. -/
def diamondScanned : List PyTable :=
  [⟨"BASE TABLE", "s", "t", 0⟩, ⟨"VIEW", "s", "b", 1⟩, ⟨"VIEW", "s", "c", 2⟩,
   ⟨"VIEW", "s", "d", 3⟩, ⟨"VIEW", "s", "d", 4⟩]

/-! ## Helper lemmas -/

theorem childs_cycle_a : childs_rows cycleDb ⟨"s", "a"⟩ = [("VIEW", "s", "b")] := by
  decide

theorem childs_cycle_b : childs_rows cycleDb ⟨"s", "b"⟩ = [("VIEW", "s", "a")] := by
  decide

theorem allocTables_single (r : String × String × String) (ctr : Nat) :
    allocTables [r] ctr = ([⟨r.1, r.2.1, r.2.2, ctr⟩], ctr + 1) := by
  simp [allocTables, List.enum, List.enumFrom]

theorem pyMem_of_fresh {scanned : List PyTable} {c : PyTable} {ctr : Nat}
    (hid : c.id = ctr) (hlt : ∀ p ∈ scanned, p.id < ctr) :
    pyMem c scanned = false := by
  simp only [pyMem, List.any_eq_false]
  intro p hp
  have := hlt p hp
  simp only [beq_iff_eq, hid]
  omega

/-- Loop invariant on `cycleDb`: the iteration index always points at the
last element of `scanned`, that element is one of the two cycle members,
and every allocated identity tag is below the allocation counter.  Under
this invariant each iteration appends exactly one fresh `Table`, so the
index never catches up with the length. -/
def CycleInv (i : Nat) (scanned : List PyTable) (ctr : Nat) : Prop :=
  scanned.length = i + 1 ∧ (∀ p ∈ scanned, p.id < ctr) ∧
    ∃ h : i < scanned.length,
      scanned[i].schema = "s" ∧ (scanned[i].name = "a" ∨ scanned[i].name = "b")

theorem recLoop_cycle_none :
    ∀ fuel i scanned res ctr, CycleInv i scanned ctr →
      recLoop cycleDb fuel i scanned res ctr = none := by
  intro fuel
  induction fuel with
  | zero => intro i scanned res ctr _; rfl
  | succ n ih =>
      intro i scanned res ctr hinv
      obtain ⟨hlen, hids, hi, hsch, hname⟩ := hinv
      have hother : ∃ other : String, (other = "a" ∨ other = "b") ∧
          childs_rows cycleDb ⟨scanned[i].schema, scanned[i].name⟩ =
            [("VIEW", "s", other)] := by
        rcases hname with h | h
        · exact ⟨"b", Or.inr rfl, by rw [hsch, h]; exact childs_cycle_a⟩
        · exact ⟨"a", Or.inl rfl, by rw [hsch, h]; exact childs_cycle_b⟩
      obtain ⟨other, hob, hrows⟩ := hother
      have hch : childs cycleDb scanned[i] ctr = ([⟨"VIEW", "s", other, ctr⟩], ctr + 1) := by
        unfold childs
        rw [hrows, allocTables_single]
      rw [recLoop, dif_pos hi, hch]
      simp only [List.length_cons, List.length_nil, Nat.zero_add, Nat.lt_irrefl,
        gt_iff_lt, Nat.zero_lt_one, if_true, List.foldl_cons, List.foldl_nil]
      rw [pyMem_of_fresh rfl hids]
      simp only [Bool.false_eq_true, if_false]
      apply ih
      refine ⟨by simp [hlen], ?_, ?_⟩
      · intro p hp
        rcases List.mem_append.mp hp with hp | hp
        · exact Nat.lt_succ_of_lt (hids p hp)
        · simp only [List.mem_singleton] at hp
          subst hp
          exact Nat.lt_succ_self _
      · have hlen2 : i + 1 < (scanned ++ [(⟨"VIEW", "s", other, ctr⟩ : PyTable)]).length := by
          simp [hlen]
        refine ⟨hlen2, ?_⟩
        have hget : (scanned ++ [(⟨"VIEW", "s", other, ctr⟩ : PyTable)])[i + 1] =
            ⟨"VIEW", "s", other, ctr⟩ := by
          have hle : scanned.length ≤ i + 1 := by omega
          rw [List.getElem_append_right hle]
          have h0 : i + 1 - scanned.length = 0 := by omega
          simp [h0]
        rw [hget]
        exact ⟨rfl, hob⟩

/-- Pairs appended to `res` always carry a non-empty `childs` list, and
the loop never removes pairs: every pair of a completed run's result has
non-empty children. -/
theorem recLoop_res_nonempty (db : Db) :
    ∀ fuel i scanned res ctr out,
      recLoop db fuel i scanned res ctr = some out →
      res.all (fun pr => !pr.2.isEmpty) = true →
      out.1.all (fun pr => !pr.2.isEmpty) = true := by
  intro fuel
  induction fuel with
  | zero => intro i scanned res ctr out h _; exact absurd h (by simp [recLoop])
  | succ n ih =>
      intro i scanned res ctr out h hres
      rw [recLoop] at h
      by_cases hi : i < scanned.length
      · rw [dif_pos hi] at h
        by_cases hc : (childs db scanned[i] ctr).1.length > 0
        · rw [if_pos hc] at h
          refine ih _ _ _ _ _ h ?_
          rw [List.all_append, hres]
          simp only [List.all_cons, List.all_nil, Bool.and_true, Bool.true_and]
          cases hcs : (childs db scanned[i] ctr).1 with
          | nil => rw [hcs] at hc; simp at hc
          | cons c cs => simp
        · rw [if_neg hc] at h
          exact ih _ _ _ _ _ h hres
      · rw [dif_neg hi] at h
        injection h with h
        rw [← h]
        exact hres

theorem mem_insertSorted {le : α → α → Bool} {a x : α} :
    ∀ {l : List α}, x ∈ insertSorted le a l → x = a ∨ x ∈ l := by
  intro l
  induction l with
  | nil => intro h; simp [insertSorted] at h; exact Or.inl h
  | cons b bs ih =>
      intro h
      unfold insertSorted at h
      split at h
      · rcases List.mem_cons.mp h with h | h
        · exact Or.inl h
        · exact Or.inr h
      · rcases List.mem_cons.mp h with h | h
        · exact Or.inr (h ▸ List.mem_cons_self b bs)
        · rcases ih h with h | h
          · exact Or.inl h
          · exact Or.inr (List.mem_cons_of_mem b h)

theorem mem_sortedBy {le : α → α → Bool} {x : α} :
    ∀ {l : List α}, x ∈ sortedBy le l → x ∈ l := by
  intro l
  induction l with
  | nil => intro h; simp [sortedBy] at h
  | cons a as ih =>
      intro h
      rcases mem_insertSorted h with h | h
      · exact h ▸ List.mem_cons_self a as
      · exact List.mem_cons_of_mem a (ih h)

theorem mem_dedupAux [BEq α] {x : α} :
    ∀ {l seen : List α}, x ∈ dedupAux seen l → x ∈ l := by
  intro l
  induction l with
  | nil => intro seen h; simp [dedupAux] at h
  | cons a as ih =>
      intro seen h
      unfold dedupAux at h
      split at h
      · exact List.mem_cons_of_mem a (ih h)
      · rcases List.mem_cons.mp h with h | h
        · exact h ▸ List.mem_cons_self a as
        · exact List.mem_cons_of_mem a (ih h)

/-! ## The claims -/

/-- **C1.**  The claim asserts that `recursive_childs` terminates on a
reference cycle, expanding each object at most once.  On the code this
fails: `childs` allocates fresh `Table` objects for every result row, and
`c not in scanned` compares by object identity (class `Table` has no
`__eq__`), so the guard never fires and the loop re-enqueues a fresh
instance of the other cycle member forever.  Formally: for *every* fuel
bound, the loop on `cycleDb` (views `s.a` ↔ `s.b`) is still running. -/
theorem recursive_childs_cycle_diverges :
    ∀ fuel, recursive_childs cycleDb cycleRoot fuel = none := by
  intro fuel
  unfold recursive_childs
  rw [recLoop_cycle_none fuel 0 [cycleRoot] [] (cycleRoot.id + 1)
    ⟨rfl, by decide, by decide⟩]
  rfl

/-- **C2.**  `recursive_childs` processes `scanned` in FIFO order starting
from `[root]`, appends `(object, children)` to `res` exactly when the
one-hop result is non-empty, and the result pairs come in breadth-first
traversal order.  First conjunct: in every completed run, every result
pair has non-empty children.  Second conjunct: the complete run on
`chainDb` — root `s.z` is reported first although `"m" < "z"`
(traversal order, not alphabetical), the dequeued leaves `s.q` and `s.a`
contribute no pair, and the pairs follow the FIFO order `z, m`. -/
theorem recursive_childs_bfs :
    (∀ (db : Db) (root : PyTable) (fuel : Nat) (out : List (PyTable × List PyTable)),
      recursive_childs db root fuel = some out →
      out.all (fun pr => !pr.2.isEmpty) = true) ∧
    recursive_childs chainDb chainRoot 10 = some chainRes := by
  constructor
  · intro db root fuel out h
    unfold recursive_childs at h
    cases hrec : recLoop db fuel 0 [root] [] (root.id + 1) with
    | none => rw [hrec] at h; exact absurd h (by simp)
    | some pair =>
        rw [hrec] at h
        injection h with h
        rw [← h]
        exact recLoop_res_nonempty db fuel 0 [root] [] (root.id + 1) pair hrec rfl
  · decide

/-- Witness for the hypotheses of `recursive_childs_bfs`: instantiated on
the concrete `chainDb` run. -/
theorem recursive_childs_bfs_witness :
    chainRes.all (fun pr => !pr.2.isEmpty) = true :=
  recursive_childs_bfs.1 chainDb chainRoot 10 chainRes recursive_childs_bfs.2

/-- **C3.**  In the `WHERE` clause of `childs`, the bare-name pattern
`pat2` only applies together with `schema_name = target.schema`: for any
candidate row whose schema differs from the target's, membership in the
matched set is equivalent to matching the *qualified* pattern `pat1`, so a
bare-name-only definition in a different schema never matches. -/
theorem bare_match_same_schema_only (db : Db) (t : Tgt) (r : CandRow)
    (hmem : r ∈ candidates db t) (hne : r.schema_name ≠ t.schema) :
    r ∈ childsMatched db t ↔ simMatch (pat1 t.schema t.name) r.definition = true := by
  unfold childsMatched
  rw [List.mem_filter]
  unfold matchCond
  have hbeq : (r.schema_name == t.schema) = false := beq_eq_false_iff_ne.mpr hne
  simp [hmem, hbeq]

/-- Catalog for the witness of `bare_match_same_schema_only`: a view in
schema `s2` whose definition holds a qualified reference to `s.t`. -/
def crossDb : Db := ⟨[], [], [⟨"s2", "vx", " s.t "⟩], [], [], []⟩

def crossRow : CandRow := ⟨"VIEW", "s2", "vx", flattenNL " s.t ".data⟩

/-- Witness for `bare_match_same_schema_only` at a concrete cross-schema
candidate. -/
theorem bare_match_same_schema_only_witness :
    crossRow ∈ childsMatched crossDb ⟨"s", "t"⟩ ↔
      simMatch (pat1 "s" "t") crossRow.definition = true :=
  bare_match_same_schema_only crossDb ⟨"s", "t"⟩ crossRow (by decide) (by decide)

/-- Catalog for **C4**: two views in the target's schema, one whose
definition holds the whitespace-delimited token `s.t(` and one where the
name continues as `s.tfoo`. -/
def boundaryDb : Db :=
  ⟨[], [], [⟨"s", "good", "select x from s.t( y"⟩, ⟨"s", "bad", "select x from s.tfoo y"⟩],
   [], [], []⟩

/-- **C4.**  The qualified pattern of `childs` accepts a definition text
containing the token `s.t(` (function-call style, whitespace on the left,
`(` allowed after the name) and rejects `s.tfoo` (no boundary after the
name): at the pattern level and through the full `childs` query, where
only the `good` view is returned. -/
theorem qualified_match_boundary :
    simMatch (pat1 "s" "t") ("select x from s.t( y".data) = true ∧
    simMatch (pat1 "s" "t") ("select x from s.tfoo y".data) = false ∧
    childs_rows boundaryDb ⟨"s", "t"⟩ = [("VIEW", "s", "good")] := by
  refine ⟨by decide, by decide, by decide⟩

/-- Catalog for the **C5** counterexample: a view `s.w` whose definition
text contains the token `s.w` (e.g. inside a string literal — the matcher
is purely textual). -/
def selfViewDb : Db := ⟨[], [], [⟨"s", "w", " s.w "⟩], [], [], []⟩

/-- **C5, counterexample.**  The claim says the object passed to `childs`
is never returned among its own children.  False: the self-exclusion
`AND NOT (n.nspname = %s AND p.proname = %s)` sits only in the *function*
CTE; the *view* CTE has no such filter, so a view whose definition text
matches its own name is returned as its own child. -/
theorem childs_view_returns_itself :
    childs_rows selfViewDb ⟨"s", "w"⟩ = [("VIEW", "s", "w")] := by
  decide

/-- **C5, amended.**  Self-exclusion holds for *function* candidates only:
every `FUNCTION` row returned by `childs` differs from the queried object
in schema or name. -/
theorem childs_function_never_itself (db : Db) (t : Tgt)
    (r : String × String × String) (hmem : r ∈ childs_rows db t)
    (hty : r.1 = "FUNCTION") : ¬(r.2.1 = t.schema ∧ r.2.2 = t.name) := by
  unfold childs_rows at hmem
  obtain ⟨cr, hcr, hproj⟩ := List.mem_map.mp hmem
  have h1 : cr ∈ childsMatched db t := mem_sortedBy hcr
  have h2 : cr ∈ candidates db t := (List.mem_filter.mp h1).1
  have h3 : cr ∈ fRows db t ++ vRows db := mem_dedupAux h2
  rcases List.mem_append.mp h3 with h4 | h4
  · obtain ⟨d, hd, hmk⟩ := List.mem_map.mp h4
    have hcond := (List.mem_filter.mp hd).2
    simp only [Bool.and_eq_true, Bool.not_eq_true'] at hcond
    have hc3 : (d.schema_name == t.schema && d.table_name == t.name) = false :=
      hcond.2
    intro hcontra
    rw [← hproj] at hcontra
    rw [← hmk] at hcontra
    obtain ⟨ha, hb⟩ := hcontra
    simp only at ha hb
    rw [ha, hb] at hc3
    simp at hc3
  · obtain ⟨d, _, hmk⟩ := List.mem_map.mp h4
    rw [← hproj, ← hmk] at hty
    simp at hty

/-- Catalog for the witness of `childs_function_never_itself`: a function
in schema `s2` referencing `s.t`. -/
def fnDb : Db := ⟨[], [⟨"s2", "g", " s.t "⟩], [], [], [], []⟩

/-- Witness for `childs_function_never_itself` at a concrete returned
function row. -/
theorem childs_function_never_itself_witness :
    ¬((("FUNCTION", "s2", "g") : String × String × String).2.1 = "s" ∧
      (("FUNCTION", "s2", "g") : String × String × String).2.2 = "t") :=
  childs_function_never_itself fnDb ⟨"s", "t"⟩ ("FUNCTION", "s2", "g")
    (by decide) rfl

/-- **C6, counterexample.**  The claim says node insertion is idempotent
for an `ObjectRef` identified by `(schema, name)`, so the renderer never
receives two node declarations for one database object.  False: `parent
not in self.plotted` / `child not in self.plotted` are identity tests, and
`recursive_childs` hands `graph_childs` distinct `Table` instances for the
same database object (`s.d` discovered under both `s.b` and `s.c`), so the
node `s.d` is declared twice. -/
theorem graph_declares_duplicate_node :
    (((graph_childs emptyG diamondRes).nodes.map Prod.fst).count "s.d") = 2 := by
  decide

/-- **C6, amended.**  Node insertion is idempotent with respect to Python
object identity: re-inserting the very same instance is a no-op (first
insertion wins), but two distinct instances with equal `(schema, name)`
are both declared. -/
theorem addNodeT_idempotent_same_instance (g : GState) (t : PyTable) :
    addNodeT (addNodeT g t) t = addNodeT g t := by
  by_cases h : pyObjMem (.tbl t) g.plotted = true
  · unfold addNodeT
    rw [if_pos h, if_pos h]
  · have h' : pyObjMem (.tbl t) g.plotted = false := by
      revert h; cases pyObjMem (.tbl t) g.plotted <;> simp
    unfold addNodeT
    rw [h']
    simp only [Bool.false_eq_true, if_false]
    have hmem : pyObjMem (.tbl t) (g.plotted ++ [.tbl t]) = true := by
      simp [pyObjMem, List.any_append, objSame]
    rw [hmem]
    simp

/-- Catalog for **C7**: a composite foreign key `fk2` on columns `(a, b)`
of table `s.u` referencing `s.t` (its `key_column_usage` rows listed out
of declaration order), plus an unrelated constraint `fk9`. -/
def compositeDb : Db := ⟨[], [], [],
  [⟨"c", "s", "fk2", "s", "t", "x"⟩, ⟨"c", "s", "fk2", "s", "t", "y"⟩,
   ⟨"c", "s", "fk9", "s", "t2", "z"⟩],
  [⟨"c", "s", "fk2"⟩, ⟨"c", "s", "fk9"⟩],
  [⟨"c", "s", "fk2", "s", "u", "b", 2, 2⟩, ⟨"c", "s", "fk2", "s", "u", "a", 1, 1⟩,
   ⟨"c", "s", "fk9", "s", "w", "k", 1, 1⟩]⟩

/-- **C7.**  For a composite foreign key on columns `(a, b)` in
declaration order, `fkeys` returns exactly one row for the constraint,
with the column array `[a, b]` ordered by `ordinal_position` — not two
single-column rows (and the unrelated constraint is filtered out). -/
theorem fkeys_composite_single_row :
    fkeys_rows compositeDb ⟨"s", "t"⟩ = [("s", "u", ["a", "b"])] := by
  decide

/-- Catalog of the **C8** scenario exactly as the claim states it: schema
`s` with table `t`, view `v` whose definition text is
`SELECT * FROM s.t`, and table `u` with a foreign key to `t` on `id`. -/
def scenarioDb : Db := ⟨
  [⟨"BASE TABLE", "s", "t"⟩, ⟨"BASE TABLE", "s", "u"⟩, ⟨"VIEW", "s", "v"⟩],
  [], [⟨"s", "v", "SELECT * FROM s.t"⟩],
  [⟨"c", "s", "fk1", "s", "t", "id"⟩], [⟨"c", "s", "fk1"⟩],
  [⟨"c", "s", "fk1", "s", "u", "id", 1, 1⟩]⟩

def scenarioRoot : PyTable := ⟨"BASE TABLE", "s", "t", 0⟩

/-- **C8, counterexample.**  With the definition text exactly
`SELECT * FROM s.t`, both patterns of `childs` require the matched token
to be followed by a boundary character and then a space, which the
text's end does not provide: the whole-schema report gives `t` a
one-hop-children count of 0 (not 1), and the transitive resolution of `t`
is empty (not `[(t, [v])]`). -/
theorem scenario_as_stated_fails :
    schema_report scenarioDb "s" =
      [("s", "BASE TABLE", "t", 0, 1), ("s", "BASE TABLE", "u", 0, 0),
       ("s", "VIEW", "v", 0, 0)] ∧
    recursive_childs scenarioDb scenarioRoot 10 = some [] := by
  refine ⟨by decide, by decide⟩

/-- The same scenario with the view definition `SELECT * FROM s.t ` — a
trailing space provides the right boundary the patterns demand. -/
def scenarioDbSp : Db := ⟨
  [⟨"BASE TABLE", "s", "t"⟩, ⟨"BASE TABLE", "s", "u"⟩, ⟨"VIEW", "s", "v"⟩],
  [], [⟨"s", "v", "SELECT * FROM s.t "⟩],
  [⟨"c", "s", "fk1", "s", "t", "id"⟩], [⟨"c", "s", "fk1"⟩],
  [⟨"c", "s", "fk1", "s", "u", "id", 1, 1⟩]⟩

/-- **C8, amended.**  In the stated scenario with the view definition text
carrying a trailing boundary (`SELECT * FROM s.t `), everything the claim
asserts holds: the report row for `t` counts 1 one-hop child and 1
foreign key, the transitive resolution is exactly `[(t, [v])]`, and the
foreign-key result is the single row `(u, [id])`. -/
theorem scenario_with_boundary_holds :
    schema_report scenarioDbSp "s" =
      [("s", "BASE TABLE", "t", 1, 1), ("s", "BASE TABLE", "u", 0, 0),
       ("s", "VIEW", "v", 0, 0)] ∧
    recursive_childs scenarioDbSp scenarioRoot 10 =
      some [(scenarioRoot, [⟨"VIEW", "s", "v", 1⟩])] ∧
    fkeys_rows scenarioDbSp ⟨"s", "t"⟩ = [("s", "u", ["id"])] := by
  refine ⟨by decide, by decide, by decide⟩

/-- **C9.**  When the requested root object yields no catalog row,
`create_table` fails (`[Table(row) for row in rows][0]` raises
`IndexError`, a fatal non-zero exit) before any traversal or graph work:
the `--table` run produces no output at all. -/
theorem missing_root_aborts (db : Db) (schema table : String) (fuel : Nat)
    (h : create_table_rows db schema table = []) :
    run_table db schema table fuel = none := by
  unfold run_table create_table
  rw [h]

/-- Catalog for the witness of `missing_root_aborts`. -/
def lookupDb : Db := ⟨[⟨"BASE TABLE", "s", "t"⟩], [], [], [], [], []⟩

/-- Witness for `missing_root_aborts`: requesting the absent object
`s.nope`. -/
theorem missing_root_aborts_witness : run_table lookupDb "s" "nope" 5 = none :=
  missing_root_aborts lookupDb "s" "nope" 5 (by decide)

/-- **C10.**  Equality between `Table` (and `Column`) objects is Python
object identity: two instances with equal schema, name and kind but
different identities are not `in`-equal, so `scanned` (in
`recursive_childs`) and `plotted` (in `graph_childs`) can hold two entries
for the same database object.  Concretely on `diamondDb`: the membership
tests treat the two `s.d` instances (tags 3 and 4) as distinct, the
traversal re-expands `s.d` and its final `scanned` holds both instances,
and `graph_childs` plots both. -/
theorem object_equality_is_identity :
    pyMem ⟨"VIEW", "s", "d", 4⟩ [⟨"VIEW", "s", "d", 3⟩] = false ∧
    objSame (.col ⟨"s", "u", ["id"], 7⟩) (.col ⟨"s", "u", ["id"], 8⟩) = false ∧
    recLoop diamondDb 10 0 [diamondRoot] [] 1 = some (diamondRes, diamondScanned) ∧
    (graph_childs emptyG diamondRes).plotted =
      [.tbl ⟨"BASE TABLE", "s", "t", 0⟩, .tbl ⟨"VIEW", "s", "b", 1⟩,
       .tbl ⟨"VIEW", "s", "c", 2⟩, .tbl ⟨"VIEW", "s", "d", 3⟩,
       .tbl ⟨"VIEW", "s", "d", 4⟩] := by
  refine ⟨by decide, by decide, by decide, by decide⟩

end PgDep

